import Mathlib

/-!
Verification development for the collaborative nightly trip-optimization
engine (multi-company freight logistics).  The definitions below are a
shallow embedding of the Python services:

* `app/services/cross_company_optimization.py` (CP-SAT group model,
  feasibility builder, round-robin fallback, KPI attribution, batch runner);
* `app/services/optimization.py` (single-company compatibility filter and
  category-group accounting);
* `app/services/valhalla_service.py` (routing response parsing).

Floats of the source are modelled as rationals; database rows as plain
structures; the external CP-SAT / OR-routing solvers as their documented
contract (a returned solution satisfies every posted constraint and, when
OPTIMAL, minimizes the posted objective).
-/

/-- A trip as prepared by `_prepare_trips_data`: coordinates, time window,
duration and service minutes, cargo weight (`demand`), estimated return
distance `r_i0`, plus the raw cargo category used for grouping. -/
structure CTrip where
  id : Nat
  cargoCategory : String
  orig : ℚ × ℚ
  dest : ℚ × ℚ
  earliest : ℚ
  latest : ℚ
  duration : ℚ
  service : ℚ
  demand : ℚ
  r_i0 : ℚ
  companyId : Nat
deriving DecidableEq, Repr

/-- A vehicle as prepared by `_prepare_vehicles_data`: depot coordinates,
capacity (`capacity_tons or 10`), owning company, fuel consumption. -/
structure CVehicle where
  id : Nat
  category : String
  depot : ℚ × ℚ
  capacity : ℚ
  companyId : Nat
  fuel_consumption : ℚ
deriving DecidableEq, Repr

/-- Python `enumerate` starting at `k`. -/
def enumFrom {α : Type} (k : Nat) : List α → List (Nat × α)
  | [] => []
  | a :: as_ => (k, a) :: enumFrom (k + 1) as_

/-- Embedding of `_calculate_feasible_edges`: for every ordered pair of
distinct positions `(i, j)` the edge `(id i, id j)` is kept when
`earliest(i) + duration(i) + service(i) + travel(dest_i, orig_j) <= latest(j)`.
The routing provider is the function argument `travel`. -/
def calculate_feasible_edges (travel : ℚ × ℚ → ℚ × ℚ → ℚ) (trips : List CTrip) :
    List (Nat × Nat) :=
  (enumFrom 0 trips).flatMap fun p =>
    (enumFrom 0 trips).filterMap fun q =>
      if p.1 = q.1 then none
      else if p.2.earliest + p.2.duration + p.2.service + travel p.2.dest q.2.orig ≤ q.2.latest
      then some (p.2.id, q.2.id)
      else none

/-- Modelled from the spec: `latest_start(t) = max(earliest(t),
planned_arrival_time(t) - duration(t))` (spec section 4.2). -/
def spec_latest_start (t : CTrip) : ℚ :=
  max t.earliest (t.latest - t.duration)

/-- Modelled from the spec: the arc-feasibility condition of section 4.2,
`earliest(i) + duration(i) + service(i) + travel(dest_i, orig_j) <= latest_start(j)`. -/
def spec_arc_feasible (travel : ℚ × ℚ → ℚ × ℚ → ℚ) (ti tj : CTrip) : Prop :=
  ti.earliest + ti.duration + ti.service + travel ti.dest tj.orig ≤ spec_latest_start tj

instance (travel : ℚ × ℚ → ℚ × ℚ → ℚ) (ti tj : CTrip) :
    Decidable (spec_arc_feasible travel ti tj) := by
  unfold spec_arc_feasible; infer_instance

lemma mem_enumFrom {α : Type} {p : Nat × α} :
    ∀ {l : List α} {k : Nat},
      p ∈ enumFrom k l ↔ ∃ n : Nat, ∃ h : n < l.length, p = (k + n, l.get ⟨n, h⟩)
  | [], k => by simp [enumFrom]
  | a :: as_, k => by
    constructor
    · intro hp
      rcases List.mem_cons.mp hp with h | h
      · exact ⟨0, by simp, by simpa using h⟩
      · rcases (mem_enumFrom (l := as_) (k := k + 1)).mp h with ⟨n, hn, rfl⟩
        exact ⟨n + 1, by simpa using Nat.succ_lt_succ hn, by
          simp [List.get]; omega⟩
    · rintro ⟨n, hn, rfl⟩
      cases n with
      | zero => exact List.mem_cons.mpr (Or.inl (by simp))
      | succ m =>
        refine List.mem_cons.mpr (Or.inr ?_)
        refine (mem_enumFrom (l := as_) (k := k + 1)).mpr ⟨m, Nat.lt_of_succ_lt_succ hn, ?_⟩
        simp [List.get]; omega

/-- Concrete routing function for counterexamples: zero travel time. -/
def travZero : ℚ × ℚ → ℚ × ℚ → ℚ := fun _ _ => 0

/-- First trip of the arc-feasibility counterexample: departs at 0, drives
10 minutes, 30 minutes service. -/
def ctripA : CTrip :=
  { id := 1, cargoCategory := "a01_produits_frais", orig := (0, 0), dest := (0, 0)
    earliest := 0, latest := 1000, duration := 10, service := 30
    demand := 1, r_i0 := 0, companyId := 1 }

/-- Second trip of the arc-feasibility counterexample: window end (planned
arrival) 50 but duration 100, so the spec's latest start is 0. -/
def ctripB : CTrip :=
  { id := 2, cargoCategory := "a01_produits_frais", orig := (0, 0), dest := (0, 0)
    earliest := 0, latest := 50, duration := 100, service := 30
    demand := 1, r_i0 := 0, companyId := 1 }

/-- C4 counterexample: `_calculate_feasible_edges` keeps the edge (1, 2)
because `0 + 10 + 30 + 0 <= latest(2) = 50`, yet the claim's condition
compares against `latest_start(2) = max(0, 50 - 100) = 0` and rejects it:
the code uses the raw planned arrival time, never `max(earliest, arrival -
duration)`. -/
theorem C4_counterexample :
    (1, 2) ∈ calculate_feasible_edges travZero [ctripA, ctripB] ∧
      ¬ spec_arc_feasible travZero ctripA ctripB := by
  constructor
  · simp [calculate_feasible_edges, enumFrom, travZero, ctripA, ctripB]
    norm_num
  · simp [spec_arc_feasible, spec_latest_start, travZero, ctripA, ctripB]
    norm_num

/-- C4 (amended): an edge `(a, b)` is emitted by the feasibility builder iff
some pair of distinct positions `i, j` carries ids `a, b` and satisfies
`earliest(i) + duration(i) + service(i) + travel(dest_i, orig_j) <= latest(j)`
where `latest(j)` is the raw planned arrival attribute of trip `j`. -/
theorem C4_amended (travel : ℚ × ℚ → ℚ × ℚ → ℚ) (trips : List CTrip) (a b : Nat) :
    (a, b) ∈ calculate_feasible_edges travel trips ↔
      ∃ i j : Fin trips.length, (i : Nat) ≠ (j : Nat) ∧
        (trips.get i).id = a ∧ (trips.get j).id = b ∧
        (trips.get i).earliest + (trips.get i).duration + (trips.get i).service +
            travel (trips.get i).dest (trips.get j).orig ≤ (trips.get j).latest := by
  unfold calculate_feasible_edges
  rw [List.mem_flatMap]
  constructor
  · rintro ⟨p, hp, hmem⟩
    rcases mem_enumFrom.mp hp with ⟨n, hn, rfl⟩
    rcases List.mem_filterMap.mp hmem with ⟨q, hq, hval⟩
    rcases mem_enumFrom.mp hq with ⟨m, hm, rfl⟩
    split at hval
    · exact Option.noConfusion hval
    · split at hval
      · next hnm hcond =>
          refine ⟨⟨n, hn⟩, ⟨m, hm⟩, by simpa using hnm, ?_, ?_, hcond⟩
          · exact congrArg Prod.fst (Option.some.inj hval)
          · exact congrArg Prod.snd (Option.some.inj hval)
      · exact Option.noConfusion hval
  · rintro ⟨i, j, hij, ha, hb, hcond⟩
    refine ⟨(0 + i.val, trips.get i), mem_enumFrom.mpr ⟨i.val, i.isLt, by simp⟩, ?_⟩
    refine List.mem_filterMap.mpr ⟨(0 + j.val, trips.get j),
      mem_enumFrom.mpr ⟨j.val, j.isLt, by simp⟩, ?_⟩
    rw [if_neg (by simpa using hij), if_pos hcond, ha, hb]

/-- Instance of one vehicle-category group handed to `_optimize_group`:
the prepared trips and vehicles plus the routing snapshot. -/
structure GroupInstance (nV nT : Nat) where
  trips : Fin nT → CTrip
  vehicles : Fin nV → CVehicle
  travel : ℚ × ℚ → ℚ × ℚ → ℚ

/-- Candidate valuation of the CP-SAT variables created by `_optimize_group`:
assignment `X[v,i]`, chaining `Y[v,i,j]`, trip start times, and the
vehicle-used indicators of the objective. -/
structure GroupSol (nV nT : Nat) where
  X : Fin nV → Fin nT → Bool
  Y : Fin nV → Fin nT → Fin nT → Bool
  start : Fin nT → ℚ
  used : Fin nV → Bool

/-- Total cargo weight the solution loads on vehicle `v` (the linear
expression of constraint C4 in `_optimize_group`). -/
def assignedWeight {nV nT : Nat} (inst : GroupInstance nV nT) (s : GroupSol nV nT)
    (v : Fin nV) : ℚ :=
  ∑ i : Fin nT, if s.X v i then (inst.trips i).demand else 0

/-- The arc condition under which `_optimize_group` creates a `Y[v,i,j]`
variable (distinct trips joined by a feasible edge). -/
def edgeOk {nV nT : Nat} (inst : GroupInstance nV nT) (i j : Fin nT) : Prop :=
  i ≠ j ∧
    (inst.trips i).earliest + (inst.trips i).duration + (inst.trips i).service +
        inst.travel (inst.trips i).dest (inst.trips j).orig ≤ (inst.trips j).latest

/-- Conjunction of every constraint `_optimize_group` posts on the model:
coverage (each trip on exactly one vehicle), `Y -> X` consistency with `Y`
restricted to feasible edges, sequencing enforced by `Y`, start-time
windows, per-vehicle weight capacity (`sum demand <= capacity`, exactly as
the source writes it), and the used-indicator linking of the objective. -/
def group_feasible {nV nT : Nat} (inst : GroupInstance nV nT) (s : GroupSol nV nT) : Prop :=
  (∀ i : Fin nT, (∑ v : Fin nV, if s.X v i then 1 else 0) = (1 : ℕ)) ∧
  (∀ v : Fin nV, ∀ i j : Fin nT,
    s.Y v i j = true → edgeOk inst i j ∧ s.X v i = true ∧ s.X v j = true) ∧
  (∀ v : Fin nV, ∀ i j : Fin nT, s.Y v i j = true →
    s.start i + (inst.trips i).duration + (inst.trips i).service +
        inst.travel (inst.trips i).dest (inst.trips j).orig ≤ s.start j) ∧
  (∀ i : Fin nT, (inst.trips i).earliest ≤ s.start i ∧ s.start i ≤ (inst.trips i).latest) ∧
  (∀ v : Fin nV, assignedWeight inst s v ≤ (inst.vehicles v).capacity) ∧
  (∀ v : Fin nV, s.used v = true ↔ 0 < (∑ i : Fin nT, if s.X v i then 1 else 0 : ℕ))

instance {nV nT : Nat} (inst : GroupInstance nV nT) (s : GroupSol nV nT) :
    Decidable (group_feasible inst s) := by
  unfold group_feasible edgeOk; infer_instance

/-- Value of the single objective `_optimize_group` minimizes. -/
def usedCount {nV nT : Nat} (s : GroupSol nV nT) : ℕ :=
  ∑ v : Fin nV, if s.used v then 1 else 0

/-- Contract of the single CP-SAT solve in `_optimize_group`: the returned
valuation satisfies every posted constraint and minimizes the number of
used vehicles. -/
def cp_sat_optimal {nV nT : Nat} (inst : GroupInstance nV nT) (s : GroupSol nV nT) : Prop :=
  group_feasible inst s ∧
    ∀ s2 : GroupSol nV nT, group_feasible inst s2 → usedCount s ≤ usedCount s2

/-- Number of vehicles that actually carry at least one trip. -/
def assignedVehiclesCount {nV nT : Nat} (s : GroupSol nV nT) : ℕ :=
  ∑ v : Fin nV, if ∃ i : Fin nT, s.X v i = true then 1 else 0

lemma exists_assigned_of_feasible {nV nT : Nat} {inst : GroupInstance nV nT}
    {s : GroupSol nV nT} (h : group_feasible inst s) (i : Fin nT) :
    ∃ v : Fin nV, s.X v i = true := by
  have hcov := h.1 i
  by_contra hnone
  push_neg at hnone
  have : (∑ v : Fin nV, if s.X v i then 1 else 0) = (0 : ℕ) :=
    Finset.sum_eq_zero fun v _ => by
      have hv := hnone v
      simp only [Bool.not_eq_true] at hv
      simp [hv]
  omega

lemma used_of_assigned {nV nT : Nat} {inst : GroupInstance nV nT}
    {s : GroupSol nV nT} (h : group_feasible inst s) {v : Fin nV} {i : Fin nT}
    (hx : s.X v i = true) : s.used v = true := by
  refine (h.2.2.2.2.2 v).mpr ?_
  have hle : (1 : ℕ) ≤ ∑ j : Fin nT, if s.X v j then 1 else 0 := by
    have := Finset.single_le_sum
      (f := fun j : Fin nT => if s.X v j then (1 : ℕ) else 0)
      (fun j _ => Nat.zero_le _) (Finset.mem_univ i)
    simpa [hx] using this
  omega

lemma one_le_usedCount {nV nT : Nat} {inst : GroupInstance nV nT}
    {s : GroupSol nV nT} (h : group_feasible inst s) (hT : 0 < nT) :
    1 ≤ usedCount s := by
  obtain ⟨v, hv⟩ := exists_assigned_of_feasible h ⟨0, hT⟩
  have hu := used_of_assigned h hv
  have := Finset.single_le_sum
    (f := fun w : Fin nV => if s.used w then (1 : ℕ) else 0)
    (fun w _ => Nat.zero_le _) (Finset.mem_univ v)
  simpa [usedCount, hu] using this

lemma usedCount_eq_assignedVehiclesCount {nV nT : Nat} {inst : GroupInstance nV nT}
    {s : GroupSol nV nT} (h : group_feasible inst s) :
    usedCount s = assignedVehiclesCount s := by
  unfold usedCount assignedVehiclesCount
  refine Finset.sum_congr rfl fun v _ => ?_
  by_cases hv : s.used v = true
  · obtain hpos := (h.2.2.2.2.2 v).mp hv
    have : ∃ i : Fin nT, s.X v i = true := by
      by_contra hnone
      push_neg at hnone
      have : (∑ i : Fin nT, if s.X v i then 1 else 0) = (0 : ℕ) :=
        Finset.sum_eq_zero fun i _ => by
          simp [Bool.eq_false_iff.mpr (fun hx => absurd hx (hnone i))]
      omega
    simp [hv, this]
  · have hz : ¬ 0 < (∑ i : Fin nT, if s.X v i then 1 else 0 : ℕ) :=
      fun hpos => hv ((h.2.2.2.2.2 v).mpr hpos)
    have : ¬ ∃ i : Fin nT, s.X v i = true := by
      rintro ⟨i, hi⟩
      have hle := Finset.single_le_sum
        (f := fun j : Fin nT => if s.X v j then (1 : ℕ) else 0)
        (fun j _ => Nat.zero_le _) (Finset.mem_univ i)
      simp only [hi, if_true] at hle
      exact hz (Nat.lt_of_lt_of_le Nat.zero_lt_one hle)
    simp [Bool.eq_false_iff.mpr hv, this]

/-- A trip as read by the single-company optimizer (`optimization.py`):
coordinates present or not, cargo weight/volume, categories. -/
structure SCTrip where
  id : Nat
  hasCoords : Bool
  cargo_weight_kg : ℚ
  cargo_volume_m3 : Option ℚ
  required_vehicle_category : Option String
  cargoCategory : String
deriving DecidableEq, Repr

/-- A vehicle row as read by the single-company optimizer. -/
structure SCVehicle where
  id : Nat
  category : String
  capacity_tons : Option ℚ
  capacity_m3 : Option ℚ
deriving DecidableEq, Repr

/-- Weight check of `_is_vehicle_compatible`: when `capacity_tons` is set the
cargo must weigh at most `capacity_tons * 1000` kilograms; otherwise no
check is performed. -/
def weight_fits (v : SCVehicle) (t : SCTrip) : Bool :=
  match v.capacity_tons with
  | some c => decide (t.cargo_weight_kg ≤ c * 1000)
  | none => true

/-- Volume check of `_is_vehicle_compatible`: only applied when both the
trip volume and the vehicle volume capacity are set. -/
def volume_fits (v : SCVehicle) (t : SCTrip) : Bool :=
  match t.cargo_volume_m3, v.capacity_m3 with
  | some vol, some cap => decide (vol ≤ cap)
  | _, _ => true

/-- Embedding of `_is_vehicle_compatible` from `optimization.py`: category
equality, then the per-trip weight and volume checks. -/
def is_vehicle_compatible (v : SCVehicle) (t : SCTrip) (required_cat : String) : Bool :=
  decide (v.category = required_cat) && weight_fits v t && volume_fits v t

/-- A trip database row as read by the cross-company pipeline: the fields
`_prepare_trips_data` consumes, plus `cargo_volume_m3`, which exists on the
row but is never read by the preparation. -/
structure TripRow where
  id : Nat
  cargoCategory : String
  departure : ℚ × ℚ
  arrival : ℚ × ℚ
  departure_ts : ℚ
  arrival_planned_ts : ℚ
  route_duration_min : Option ℚ
  cargo_weight_kg : ℚ
  cargo_volume_m3 : Option ℚ
  return_distance_km : Option ℚ
  companyId : Nat
deriving DecidableEq, Repr

/-- A vehicle database row as read by the cross-company pipeline: the
fields `_prepare_vehicles_data` consumes, plus `capacity_m3`, which exists
on the row but is never read by the preparation. -/
structure VehicleRow where
  id : Nat
  category : String
  depot : Option (ℚ × ℚ)
  capacity_tons : Option ℚ
  capacity_m3 : Option ℚ
  companyId : Nat
  fuel_consumption : Option ℚ
deriving DecidableEq, Repr

/-- Embedding of one iteration of `_prepare_trips_data`: window timestamps,
`route_duration_min or 60`, fixed 30-minute service, `demand` from the
cargo weight, `r_i0` from the stored return distance (the Valhalla refresh
of a missing return distance is external I/O and out of scope).  The row's
`cargo_volume_m3` is dropped. -/
def prepare_trip_data (r : TripRow) : CTrip :=
  { id := r.id, cargoCategory := r.cargoCategory, orig := r.departure, dest := r.arrival
    earliest := r.departure_ts, latest := r.arrival_planned_ts
    duration := r.route_duration_min.getD 60, service := 30
    demand := r.cargo_weight_kg, r_i0 := (r.return_distance_km.getD 0)
    companyId := r.companyId }

/-- Embedding of one iteration of `_prepare_vehicles_data`: depot with
`(0,0)` fallback, `capacity_tons or 10`, `fuel_consumption or 30`.  The
row's `capacity_m3` is dropped. -/
def prepare_vehicle_data (r : VehicleRow) : CVehicle :=
  { id := r.id, category := r.category, depot := r.depot.getD (0, 0)
    capacity := r.capacity_tons.getD 10, companyId := r.companyId
    fuel_consumption := r.fuel_consumption.getD 30 }

/-- C1 (amended): the weight bound holds in both modes — every solution
admitted by the cross-company capacity constraint loads at most
`capacity_tons * 1000` kg on each vehicle (the posted constraint
`sum demand <= capacity_tons` is even stronger), and the single-company
compatibility filter guarantees the per-trip weight bound — but the volume
bound holds only in the single-company filter, where it applies whenever
both sides are set. -/
theorem C1_amended :
    (∀ (nV nT : Nat) (inst : GroupInstance nV nT) (s : GroupSol nV nT) (v : Fin nV),
        0 ≤ (inst.vehicles v).capacity → group_feasible inst s →
        assignedWeight inst s v ≤ (inst.vehicles v).capacity * 1000) ∧
    (∀ (v : SCVehicle) (t : SCTrip) (cat : String),
        is_vehicle_compatible v t cat = true →
        (∀ c : ℚ, v.capacity_tons = some c → t.cargo_weight_kg ≤ c * 1000) ∧
        (∀ vol cap : ℚ, t.cargo_volume_m3 = some vol → v.capacity_m3 = some cap →
          vol ≤ cap)) := by
  constructor
  · intro nV nT inst s v hcap hfeas
    have hle : assignedWeight inst s v ≤ (inst.vehicles v).capacity := hfeas.2.2.2.2.1 v
    have : (inst.vehicles v).capacity ≤ (inst.vehicles v).capacity * 1000 :=
      le_mul_of_one_le_right hcap (by norm_num)
    linarith
  · intro v t cat hcompat
    simp only [is_vehicle_compatible, Bool.and_eq_true, decide_eq_true_eq] at hcompat
    have h1 : weight_fits v t = true := hcompat.1.2
    have h2 : volume_fits v t = true := hcompat.2
    constructor
    · intro c hc
      unfold weight_fits at h1
      rw [hc] at h1
      exact of_decide_eq_true h1
    · intro vol cap hvol hcap
      unfold volume_fits at h2
      rw [hvol, hcap] at h2
      exact of_decide_eq_true h2

/-- Concrete one-vehicle, one-trip group instance used by witnesses. -/
def instOne : GroupInstance 1 1 :=
  ⟨fun _ => ctripA, fun _ => ⟨7, "ag1_camion_frigorifique", (0, 0), 10, 1, 30⟩, travZero⟩

/-- Concrete solution of `instOne`: the single trip on the single vehicle. -/
def solOne : GroupSol 1 1 :=
  ⟨fun _ _ => true, fun _ _ _ => false, fun _ => 0, fun _ => true⟩

lemma solOne_feasible : group_feasible instOne solOne := by
  refine ⟨?_, ?_, ?_, ?_, ?_, ?_⟩
  · intro i; simp [solOne]
  · intro v i j h; simp [solOne] at h
  · intro v i j h; simp [solOne] at h
  · intro i; simp [instOne, solOne, ctripA]
  · intro v
    simp [assignedWeight, instOne, solOne, ctripA]
  · intro v; simp [solOne]

/-- Witness for the amended C1 at a concrete group instance and filter
input. -/
theorem C1_amended_witness :
    assignedWeight instOne solOne 0 ≤ 10 * 1000 ∧ (3 : ℚ) ≤ 2 * 1000 := by
  constructor
  · have := C1_amended.1 1 1 instOne solOne 0 (by norm_num [instOne]) solOne_feasible
    simpa [instOne] using this
  · exact (C1_amended.2 ⟨5, "x", some 2, some 9⟩
      ⟨4, true, 3, some 8, none, "a01_produits_frais"⟩ "x"
      (by simp [is_vehicle_compatible, weight_fits, volume_fits]; norm_num)).1 2 rfl

/-- A trip row whose 100 cubic-meter shipment weighs one kilogram. -/
def tripRowVol : TripRow :=
  { id := 51, cargoCategory := "a01_produits_frais", departure := (0, 0), arrival := (0, 0)
    departure_ts := 0, arrival_planned_ts := 1000, route_duration_min := some 10
    cargo_weight_kg := 1, cargo_volume_m3 := some 100, return_distance_km := some 0
    companyId := 1 }

/-- A vehicle row with ample weight capacity but only 10 cubic meters. -/
def vehRowVol : VehicleRow :=
  { id := 52, category := "ag1_camion_frigorifique", depot := some (0, 0)
    capacity_tons := some 10, capacity_m3 := some 10, companyId := 2
    fuel_consumption := some 30 }

/-- The cross-company group instance built from those rows through the
preparation functions, which drop both volume fields. -/
def instVol : GroupInstance 1 1 :=
  ⟨fun _ => prepare_trip_data tripRowVol, fun _ => prepare_vehicle_data vehRowVol, travZero⟩

/-- Solution loading the oversized shipment onto the small vehicle. -/
def solVol : GroupSol 1 1 :=
  ⟨fun _ _ => true, fun _ _ _ => false, fun _ => 0, fun _ => true⟩

lemma solVol_feasible : group_feasible instVol solVol := by
  refine ⟨?_, ?_, ?_, ?_, ?_, ?_⟩
  · intro i; simp [solVol]
  · intro v i j h; simp [solVol] at h
  · intro v i j h; simp [solVol] at h
  · intro i
    simp [instVol, solVol, prepare_trip_data, tripRowVol]
  · intro v
    simp [assignedWeight, instVol, solVol, prepare_trip_data, prepare_vehicle_data,
      tripRowVol, vehRowVol]
  · intro v; simp [solVol]

/-- C1 counterexample: both volume fields are set on the rows (100 m3
shipment, 10 m3 vehicle) and the volume does not fit, yet the cross-company
CP model accepts — and, being fleet-minimal, may return — the solution
assigning the trip to that vehicle: `_prepare_trips_data` and
`_prepare_vehicles_data` drop `cargo_volume_m3` and `capacity_m3`, and
`_optimize_group` posts no volume constraint, so the claimed volume bound
fails in the cross-company model. -/
theorem C1_counterexample :
    cp_sat_optimal instVol solVol ∧ solVol.X 0 0 = true ∧
      tripRowVol.cargo_volume_m3 = some 100 ∧ vehRowVol.capacity_m3 = some 10 ∧
      ¬ ((100 : ℚ) ≤ 10) := by
  refine ⟨⟨solVol_feasible, fun s2 h2 => ?_⟩, rfl, rfl, rfl, by norm_num⟩
  have h1 : usedCount solVol = 1 := by simp [usedCount, solVol]
  rw [h1]
  exact one_le_usedCount h2 (by norm_num)

/-- Trip `i` is the final trip of vehicle `v` in a solution: it is assigned
to `v` and every other trip of `v` starts strictly earlier (this is the
position the extraction loop marks `is_last_in_chain`). -/
def isLastFor {nV nT : Nat} (s : GroupSol nV nT) (v : Fin nV) (i : Fin nT) : Prop :=
  s.X v i = true ∧ ∀ j : Fin nT, s.X v j = true → j = i ∨ s.start j < s.start i

instance {nV nT : Nat} (s : GroupSol nV nT) (v : Fin nV) (i : Fin nT) :
    Decidable (isLastFor s v i) := by
  unfold isLastFor; infer_instance

/-- Modelled from the spec: total planned deadhead
`sum over v and i of IsLast[v,i] * return_km(v,i)` where `return_km(v,i)`
is the travel from `dest(i)` to `depot(v)` (spec section 4.3.3, Pass 2). -/
def spec_deadhead {nV nT : Nat} (inst : GroupInstance nV nT) (s : GroupSol nV nT) : ℚ :=
  ∑ v : Fin nV, ∑ i : Fin nT,
    if isLastFor s v i then inst.travel (inst.trips i).dest (inst.vehicles v).depot else 0

/-- Manhattan distance, the concrete routing function of the deadhead
counterexample. -/
def travMan : ℚ × ℚ → ℚ × ℚ → ℚ := fun a b => |a.1 - b.1| + |a.2 - b.2|

/-- Two identical-capacity vehicles, one at the trip destination and one
10 km away, with a single trip: fleet size cannot distinguish them. -/
def instTwo : GroupInstance 2 1 :=
  ⟨fun _ => ctripA,
   fun v => if v = 0 then ⟨21, "ag1_camion_frigorifique", (0, 0), 10, 1, 30⟩
            else ⟨22, "ag1_camion_frigorifique", (5, 5), 10, 2, 30⟩,
   travMan⟩

/-- Solution putting the trip on the far vehicle (deadhead 10). -/
def solFar : GroupSol 2 1 :=
  ⟨fun v _ => decide (v = 1), fun _ _ _ => false, fun _ => 0, fun v => decide (v = 1)⟩

/-- Solution putting the trip on the near vehicle (deadhead 0). -/
def solNear : GroupSol 2 1 :=
  ⟨fun v _ => decide (v = 0), fun _ _ _ => false, fun _ => 0, fun v => decide (v = 0)⟩

lemma solFar_feasible : group_feasible instTwo solFar := by
  refine ⟨?_, ?_, ?_, ?_, ?_, ?_⟩
  · intro i; simp [solFar, Fin.sum_univ_two]
  · intro v i j h; simp [solFar] at h
  · intro v i j h; simp [solFar] at h
  · intro i; simp [instTwo, ctripA, solFar]
  · intro v
    fin_cases v <;> simp [assignedWeight, instTwo, solFar, ctripA]
  · intro v; fin_cases v <;> simp [solFar]

lemma solNear_feasible : group_feasible instTwo solNear := by
  refine ⟨?_, ?_, ?_, ?_, ?_, ?_⟩
  · intro i; simp [solNear, Fin.sum_univ_two]
  · intro v i j h; simp [solNear] at h
  · intro v i j h; simp [solNear] at h
  · intro i; simp [instTwo, ctripA, solNear]
  · intro v
    fin_cases v <;> simp [assignedWeight, instTwo, solNear, ctripA]
  · intro v; fin_cases v <;> simp [solNear]

lemma usedCount_solFar : usedCount solFar = 1 := by
  simp [usedCount, solFar, Fin.sum_univ_two]

lemma usedCount_solNear : usedCount solNear = 1 := by
  simp [usedCount, solNear, Fin.sum_univ_two]

lemma solFar_optimal : cp_sat_optimal instTwo solFar := by
  refine ⟨solFar_feasible, fun s2 h2 => ?_⟩
  rw [usedCount_solFar]
  exact one_le_usedCount h2 (by norm_num)

lemma spec_deadhead_solFar : spec_deadhead instTwo solFar = 10 := by
  have hlast : isLastFor solFar 1 0 := by
    refine ⟨by simp [solFar], fun j hj => Or.inl (Subsingleton.elim j 0)⟩
  have hnot : ¬ isLastFor solFar 0 0 := by
    intro h
    simp [isLastFor, solFar] at h
  rw [spec_deadhead, Fin.sum_univ_two, Fin.sum_univ_one, Fin.sum_univ_one,
    if_neg hnot, if_pos hlast]
  norm_num [instTwo, ctripA, travMan]

lemma spec_deadhead_solNear : spec_deadhead instTwo solNear = 0 := by
  have hlast : isLastFor solNear 0 0 := by
    refine ⟨by simp [solNear], fun j hj => Or.inl (Subsingleton.elim j 0)⟩
  have hnot : ¬ isLastFor solNear 1 0 := by
    intro h
    simp [isLastFor, solNear] at h
  rw [spec_deadhead, Fin.sum_univ_two, Fin.sum_univ_one, Fin.sum_univ_one,
    if_pos hlast, if_neg hnot]
  norm_num [instTwo, ctripA, travMan]

/-- C3 counterexample: the single CP-SAT pass of `_optimize_group` accepts
the fleet-minimal solution that parks the trip on the far vehicle even
though an equally fleet-minimal solution has strictly smaller planned
deadhead, so the optimizer is not lexicographic and performs no Pass 2
(the model does not even contain `IsLast` variables). -/
theorem C3_counterexample :
    cp_sat_optimal instTwo solFar ∧ group_feasible instTwo solNear ∧
      usedCount solNear ≤ usedCount solFar ∧
      spec_deadhead instTwo solNear < spec_deadhead instTwo solFar := by
  refine ⟨solFar_optimal, solNear_feasible, ?_, ?_⟩
  · rw [usedCount_solFar, usedCount_solNear]
  · rw [spec_deadhead_solFar, spec_deadhead_solNear]
    norm_num

/-- C3 (amended): `_optimize_group` performs a single CP-SAT pass that
minimizes the number of vehicles used; through the used-indicator linking
constraints this equals the count of vehicles carrying at least one trip,
and it is minimal over all feasible solutions.  No deadhead objective is
solved. -/
theorem C3_amended {nV nT : Nat} (inst : GroupInstance nV nT) (s : GroupSol nV nT)
    (h : cp_sat_optimal inst s) :
    group_feasible inst s ∧
      ∀ s2 : GroupSol nV nT, group_feasible inst s2 →
        assignedVehiclesCount s ≤ assignedVehiclesCount s2 := by
  refine ⟨h.1, fun s2 h2 => ?_⟩
  rw [← usedCount_eq_assignedVehiclesCount h.1, ← usedCount_eq_assignedVehiclesCount h2]
  exact h.2 s2 h2

/-- Witness for the amended C3 at the concrete two-vehicle instance. -/
theorem C3_amended_witness :
    group_feasible instTwo solNear ∧
      ∀ s2 : GroupSol 2 1, group_feasible instTwo s2 →
        assignedVehiclesCount solNear ≤ assignedVehiclesCount s2 :=
  C3_amended instTwo solNear
    ⟨solNear_feasible, fun s2 h2 => by
      rw [usedCount_solNear]; exact one_le_usedCount h2 (by norm_num)⟩

/-- Summary block `trip.legs[0].summary` of a 200-OK Valhalla `/route`
response; the request sets `directions_options.units = kilometers`, so
`length` is kilometers and `time` is seconds. -/
structure LegSummary where
  length : ℚ
  time : ℚ
deriving DecidableEq, Repr

/-- Parsed result `get_route` builds from a successful response. -/
structure RouteResult where
  distance_km : ℚ
  duration_min : ℚ
  success : Bool
deriving DecidableEq, Repr

/-- Embedding of the 200-OK branch of `ValhallaService.get_route`: the code
returns `leg.summary.length / 1000` as `distance_km` and
`leg.summary.time / 60` as `duration_min`. -/
def get_route_ok (leg : LegSummary) : RouteResult :=
  { distance_km := leg.length / 1000, duration_min := leg.time / 60, success := true }

/-- C6: evaluating `get_route` on a successful upstream leg of length 100
(kilometers, as requested) and 600 seconds shows the code returning
`distance_km = 0.1` instead of 100: the division by 1000 re-converts a
value that is already in kilometers (the sibling `get_matrix` documents the
upstream distance unit as kilometers and multiplies by 1000 to get meters).
The duration, `time / 60`, matches the claim. -/
theorem C6_distance_unit_bug :
    (get_route_ok ⟨100, 600⟩).distance_km = 1 / 10 ∧
      (get_route_ok ⟨100, 600⟩).duration_min = 10 ∧
      (get_route_ok ⟨100, 600⟩).distance_km ≠ 100 := by
  refine ⟨?_, ?_, ?_⟩ <;> norm_num [get_route_ok]

/-- A trip row as consumed by `_calculate_company_kpis`: precomputed route
and return distances, the chain-tail marker, and the depot of the vehicle
the optimizer assigned (used only by the spec's variant). -/
structure KTrip where
  companyId : Nat
  route_distance_km : Option ℚ
  return_distance_km : Option ℚ
  is_last_in_chain : Bool
  assignedVehicleDepot : ℚ × ℚ
deriving DecidableEq, Repr

/-- Python `x or 0` on an optional number. -/
def qOr0 (o : Option ℚ) : ℚ := o.getD 0

/-- Baseline loop of `_calculate_company_kpis`: each contributed trip served
solo, route plus return. -/
def baseline_distance : List KTrip → ℚ
  | [] => 0
  | t :: ts => (qOr0 t.route_distance_km + qOr0 t.return_distance_km) + baseline_distance ts

/-- Route-distance part of the optimized total. -/
def route_distance_sum : List KTrip → ℚ
  | [] => 0
  | t :: ts => qOr0 t.route_distance_km + route_distance_sum ts

/-- The `if trip.is_last_in_chain: optimized_distance += return_distance`
loop: every chain-tail trip contributes its return distance, with no
condition on the assigned vehicle's depot. -/
def last_return_sum : List KTrip → ℚ
  | [] => 0
  | t :: ts => (if t.is_last_in_chain then qOr0 t.return_distance_km else 0) + last_return_sum ts

/-- Per-company KPI record written by `_calculate_company_kpis`. -/
structure CompanyKpi where
  km_saved : ℚ
  fuel_saved_liters : ℚ
  co2_saved_kg : ℚ
  cost_saved_usd : ℚ
deriving DecidableEq, Repr

/-- Embedding of the per-company body of `_calculate_company_kpis`:
`km_saved = max(0, baseline - optimized)`, fuel at 0.3 L/km, CO2 at
2.68 kg/L, cost at 1.5 $/L. -/
def calculate_company_kpis (originalTrips assignedTrips : List KTrip) : CompanyKpi :=
  let baseline := baseline_distance originalTrips
  let optimized := route_distance_sum assignedTrips + last_return_sum assignedTrips
  let km := max 0 (baseline - optimized)
  let fuel := km * (3 / 10)
  { km_saved := km
    fuel_saved_liters := fuel
    co2_saved_kg := fuel * (67 / 25)
    cost_saved_usd := fuel * (3 / 2) }

/-- Modelled from the spec: optimized km counts a return distance only for
chain-tail trips whose assigned vehicle departs from the company's own
depot (spec section 4.5). -/
def spec_optimized_km (companyDepot : ℚ × ℚ) (assignedTrips : List KTrip) : ℚ :=
  route_distance_sum assignedTrips +
    ((assignedTrips.filter fun t =>
        t.is_last_in_chain && decide (t.assignedVehicleDepot = companyDepot)).map
      fun t => qOr0 t.return_distance_km).sum

/-- Modelled from the spec: `km_saved(c) = max(0, baseline - optimized)`
with the depot-conditioned optimized total. -/
def spec_km_saved (companyDepot : ℚ × ℚ) (orig assigned : List KTrip) : ℚ :=
  max 0 (baseline_distance orig - spec_optimized_km companyDepot assigned)

/-- Chain-tail trip of company 1 whose assigned vehicle has a foreign depot. -/
def ktripX : KTrip :=
  { companyId := 1, route_distance_km := some 100, return_distance_km := some 50
    is_last_in_chain := true, assignedVehicleDepot := (1, 1) }

/-- C5 counterexample: with one contributed chain-tail trip (route 100 km,
return 50 km) assigned to a vehicle based at a foreign depot (company depot
(0,0), vehicle depot (1,1)), the code still adds the 50 km return to the
optimized total and reports `km_saved = 0`, while the claim's
depot-conditioned formula yields 50. -/
theorem C5_counterexample :
    (calculate_company_kpis [ktripX] [ktripX]).km_saved = 0 ∧
      spec_km_saved (0, 0) [ktripX] [ktripX] = 50 ∧ (0 : ℚ) ≠ 50 := by
  refine ⟨?_, ?_, by norm_num⟩
  · simp [calculate_company_kpis, baseline_distance, route_distance_sum,
      last_return_sum, qOr0, ktripX]
  · simp [spec_km_saved, spec_optimized_km, baseline_distance, route_distance_sum,
      qOr0, ktripX]

lemma baseline_distance_eq (l : List KTrip) :
    baseline_distance l =
      (l.map fun t => qOr0 t.route_distance_km + qOr0 t.return_distance_km).sum := by
  induction l with
  | nil => simp [baseline_distance]
  | cons t ts ih => simp [baseline_distance, ih]

lemma route_distance_sum_eq (l : List KTrip) :
    route_distance_sum l = (l.map fun t => qOr0 t.route_distance_km).sum := by
  induction l with
  | nil => simp [route_distance_sum]
  | cons t ts ih => simp [route_distance_sum, ih]

lemma last_return_sum_eq (l : List KTrip) :
    last_return_sum l =
      ((l.filter fun t => t.is_last_in_chain).map fun t => qOr0 t.return_distance_km).sum := by
  induction l with
  | nil => simp [last_return_sum]
  | cons t ts ih =>
    by_cases h : t.is_last_in_chain
    · simp [last_return_sum, h, ih, List.filter_cons]
    · simp [last_return_sum, h, ih, List.filter_cons]

/-- C5 (amended): the KPI computation clips at zero and uses the constant
factors of the claim, but the optimized total adds the return distance of
every chain-tail trip of the company, with no condition on the assigned
vehicle's depot. -/
theorem C5_amended (orig assigned : List KTrip) :
    (calculate_company_kpis orig assigned).km_saved =
        max 0 ((orig.map fun t => qOr0 t.route_distance_km + qOr0 t.return_distance_km).sum -
          ((assigned.map fun t => qOr0 t.route_distance_km).sum +
            ((assigned.filter fun t => t.is_last_in_chain).map
              fun t => qOr0 t.return_distance_km).sum)) ∧
      0 ≤ (calculate_company_kpis orig assigned).km_saved ∧
      (calculate_company_kpis orig assigned).fuel_saved_liters =
        (calculate_company_kpis orig assigned).km_saved * (3 / 10) ∧
      (calculate_company_kpis orig assigned).co2_saved_kg =
        (calculate_company_kpis orig assigned).fuel_saved_liters * (67 / 25) ∧
      (calculate_company_kpis orig assigned).cost_saved_usd =
        (calculate_company_kpis orig assigned).fuel_saved_liters * (3 / 2) := by
  refine ⟨?_, ?_, rfl, rfl, rfl⟩
  · simp [calculate_company_kpis, baseline_distance_eq, route_distance_sum_eq,
      last_return_sum_eq]
  · exact le_max_left 0 _

/-- One assignment record emitted by the cross-company optimizer. -/
structure CAssign where
  trip_id : Nat
  original_company : Nat
  assigned_vehicle_id : Nat
  assigned_company : Nat
  sequence_order : Nat
  is_last_in_chain : Bool
  start_time : ℚ
deriving DecidableEq, Repr

/-- Result dictionary of one group optimization.  The keys are exactly
those of the source: there is no fallback boolean and no unassigned set. -/
structure GroupResult where
  success : Bool
  assignments : List CAssign
  km_saved : ℚ
  fuel_saved : ℚ
  vehicle_category : String
deriving DecidableEq, Repr

/-- Embedding of `_simple_assignment_fallback`: trip at position `i` is
paired with vehicle at position `i` only while `i < len(vehicles_data)`
(a `zip`, not a modulo round-robin); every assignment gets sequence 1 and
`is_last_in_chain = true`; the reported savings are the constants
`10 km per assignment` and `0.3 L/km`. -/
def simple_assignment_fallback (trips_data : List CTrip) (vehicles_data : List CVehicle) :
    GroupResult :=
  let assignments := (trips_data.zip vehicles_data).map fun p =>
    { trip_id := p.1.id, original_company := p.1.companyId
      assigned_vehicle_id := p.2.id, assigned_company := p.2.companyId
      sequence_order := 1, is_last_in_chain := true, start_time := p.1.earliest }
  let km : ℚ := (assignments.length : ℚ) * 10
  { success := true, assignments := assignments, km_saved := km
    fuel_saved := km * (3 / 10), vehicle_category := "fallback" }

/-- Concrete vehicle for the fallback counterexample. -/
def cvehA : CVehicle := ⟨31, "ag1_camion_frigorifique", (0, 0), 10, 1, 30⟩

/-- C8 counterexample: with two trips and one vehicle the fallback makes a
single assignment; trip 2 receives no vehicle at all, whereas the claimed
round-robin `i mod |V|` would assign both trips to the vehicle. -/
theorem C8_counterexample :
    (simple_assignment_fallback [ctripA, ctripB] [cvehA]).assignments.length = 1 ∧
      ¬ ∃ a ∈ (simple_assignment_fallback [ctripA, ctripB] [cvehA]).assignments,
          a.trip_id = ctripB.id := by
  constructor
  · simp [simple_assignment_fallback]
  · simp [simple_assignment_fallback, ctripA, ctripB, cvehA]

/-- C8 (amended): the fallback pairs trip `i` with vehicle `i` only for
`i < |V|` (excess trips are left unassigned), reports `success = true` and
`vehicle_category = "fallback"` (there is no fallback boolean), each made
assignment carrying sequence 1 and the chain-tail mark. -/
theorem C8_amended (trips_data : List CTrip) (vehicles_data : List CVehicle) :
    (simple_assignment_fallback trips_data vehicles_data).success = true ∧
      (simple_assignment_fallback trips_data vehicles_data).vehicle_category = "fallback" ∧
      (simple_assignment_fallback trips_data vehicles_data).assignments.length =
        min trips_data.length vehicles_data.length ∧
      ∀ (k : Nat) (hk1 : k < trips_data.length) (hk2 : k < vehicles_data.length),
        (simple_assignment_fallback trips_data vehicles_data).assignments[k]? =
          some { trip_id := (trips_data.get ⟨k, hk1⟩).id
                 original_company := (trips_data.get ⟨k, hk1⟩).companyId
                 assigned_vehicle_id := (vehicles_data.get ⟨k, hk2⟩).id
                 assigned_company := (vehicles_data.get ⟨k, hk2⟩).companyId
                 sequence_order := 1, is_last_in_chain := true
                 start_time := (trips_data.get ⟨k, hk1⟩).earliest } := by
  refine ⟨rfl, rfl, by simp [simple_assignment_fallback], ?_⟩
  intro k hk1 hk2
  have hzip : (trips_data.zip vehicles_data)[k]? =
      some (trips_data.get ⟨k, hk1⟩, vehicles_data.get ⟨k, hk2⟩) := by
    rw [List.getElem?_zip_eq_some]
    exact ⟨List.getElem?_eq_getElem hk1, List.getElem?_eq_getElem hk2⟩
  simp [simple_assignment_fallback, List.getElem?_map, hzip]

/-- Witness for the amended C8 at two trips and one vehicle. -/
theorem C8_amended_witness :
    (simple_assignment_fallback [ctripA, ctripB] [cvehA]).assignments[0]? =
      some { trip_id := ctripA.id, original_company := ctripA.companyId
             assigned_vehicle_id := cvehA.id, assigned_company := cvehA.companyId
             sequence_order := 1, is_last_in_chain := true
             start_time := ctripA.earliest } := by
  have h := (C8_amended [ctripA, ctripB] [cvehA]).2.2.2 0 (by norm_num) (by norm_num)
  simpa using h

/-- Sequence numbering shared by both extraction loops: Python
`for idx, x in enumerate(xs)` emitting `sequence_order = idx + 1` and
`is_last_in_chain = (idx == len(xs) - 1)`, phrased with a running counter
`k` against the total length. -/
def emitChain {α : Type} (total : Nat) : Nat → List α → List (α × Nat × Bool)
  | _, [] => []
  | k, t :: ts => (t, k + 1, decide (k + 1 = total)) :: emitChain total (k + 1) ts

lemma emitChain_map_seq {α : Type} (total : Nat) :
    ∀ (l : List α) (k : Nat),
      (emitChain total k l).map (fun x => x.2.1) = List.range' (k + 1) l.length
  | [], k => by simp [emitChain]
  | t :: ts, k => by
    simp [emitChain, List.range', emitChain_map_seq total ts (k + 1)]

lemma emitChain_countP_last {α : Type} :
    ∀ (l : List α) (k total : Nat), total = k + l.length →
      (emitChain total k l).countP (fun x => x.2.2) = if l.length = 0 then 0 else 1
  | [], k, total, htotal => by simp [emitChain]
  | t :: ts, k, total, htotal => by
    have hunfold : emitChain total k (t :: ts) =
        (t, k + 1, decide (k + 1 = total)) :: emitChain total (k + 1) ts := rfl
    rw [hunfold, List.countP_cons]
    cases ts with
    | nil =>
      have hk : k + 1 = total := by simp at htotal; omega
      simp [emitChain, hk]
    | cons u us =>
      have htail := emitChain_countP_last (u :: us) (k + 1) total
        (by simp at htotal ⊢; omega)
      have hne : ¬ (k + 1 = total) := by simp at htotal; omega
      simp [htail, hne]

/-- Insertion step of the start-time sort used before numbering. -/
def insertByStart (p : Nat × ℚ) : List (Nat × ℚ) → List (Nat × ℚ)
  | [] => [p]
  | q :: qs => if p.2 ≤ q.2 then p :: q :: qs else q :: insertByStart p qs

/-- The `assigned_trips.sort(key=lambda x: x["start_time"])` of the
extraction loop, as an insertion sort. -/
def sortByStart : List (Nat × ℚ) → List (Nat × ℚ)
  | [] => []
  | p :: ps => insertByStart p (sortByStart ps)

lemma length_insertByStart (p : Nat × ℚ) :
    ∀ l : List (Nat × ℚ), (insertByStart p l).length = l.length + 1
  | [] => rfl
  | q :: qs => by
    by_cases h : p.2 ≤ q.2
    · simp [insertByStart, h]
    · simp [insertByStart, h, length_insertByStart p qs]

lemma length_sortByStart :
    ∀ l : List (Nat × ℚ), (sortByStart l).length = l.length
  | [] => rfl
  | p :: ps => by
    simp [sortByStart, length_insertByStart, length_sortByStart ps]

/-- Extraction loop of `_optimize_group` for one vehicle: sort the assigned
trips (id, start time) by start time, then number them `1..k` marking the
final one as chain tail. -/
def extract_vehicle_chain (assigned : List (Nat × ℚ)) : List ((Nat × ℚ) × Nat × Bool) :=
  emitChain (sortByStart assigned).length 0 (sortByStart assigned)

/-- Assignment loop of the single-company optimizer for one vehicle route:
`enumerate(route_trips, start=1)` with `is_last_in_chain = (idx == len)`. -/
def apply_route_numbering (route : List Nat) : List (Nat × Nat × Bool) :=
  emitChain route.length 0 route

lemma countP_zip_right {α β : Type} (p : β → Bool) :
    ∀ (xs : List α) (ys : List β),
      (xs.zip ys).countP (fun q => p q.2) ≤ ys.countP p
  | [], ys => by simp
  | x :: xs, [] => by simp
  | x :: xs, y :: ys => by
    by_cases h : p y
    · simp [List.countP_cons, h]
      exact countP_zip_right p xs ys
    · simp [List.countP_cons, h]
      exact Nat.le_trans (countP_zip_right p xs ys) (Nat.le_refl _)

/-- C7: sequence orders and chain-tail marks are well formed on every path.
The CP extraction emits sequence orders exactly `1..k` over a vehicle's
sorted trips with exactly one chain tail when the vehicle is used; the
single-company route writer does the same over a route; the fallback gives
every assignment sequence 1 with the tail mark and, when vehicle ids are
distinct, at most one assignment per vehicle. -/
theorem C7_sequence_dense :
    (∀ assigned : List (Nat × ℚ),
      ((extract_vehicle_chain assigned).map fun x => x.2.1) =
          List.range' 1 assigned.length ∧
        (assigned ≠ [] →
          (extract_vehicle_chain assigned).countP (fun x => x.2.2) = 1)) ∧
    (∀ route : List Nat,
      ((apply_route_numbering route).map fun x => x.2.1) = List.range' 1 route.length ∧
        (route ≠ [] →
          (apply_route_numbering route).countP (fun x => x.2.2) = 1)) ∧
    (∀ (trips_data : List CTrip) (vehicles_data : List CVehicle),
      ∀ a ∈ (simple_assignment_fallback trips_data vehicles_data).assignments,
        a.sequence_order = 1 ∧ a.is_last_in_chain = true) ∧
    (∀ (trips_data : List CTrip) (vehicles_data : List CVehicle) (vid : Nat),
      (vehicles_data.map CVehicle.id).Nodup →
        ((simple_assignment_fallback trips_data vehicles_data).assignments.countP
          (fun a => a.assigned_vehicle_id = vid)) ≤ 1) := by
  refine ⟨?_, ?_, ?_, ?_⟩
  · intro assigned
    constructor
    · rw [extract_vehicle_chain, emitChain_map_seq, length_sortByStart]
    · intro hne
      have hlen : (sortByStart assigned).length = assigned.length := length_sortByStart _
      rw [extract_vehicle_chain,
        emitChain_countP_last (sortByStart assigned) 0 (sortByStart assigned).length
          (by omega)]
      have : assigned.length ≠ 0 := fun h => hne (List.length_eq_zero.mp h)
      simp [hlen, this]
  · intro route
    constructor
    · rw [apply_route_numbering, emitChain_map_seq]
    · intro hne
      rw [apply_route_numbering,
        emitChain_countP_last route 0 route.length (by omega)]
      have : route.length ≠ 0 := fun h => hne (List.length_eq_zero.mp h)
      simp [this]
  · intro trips_data vehicles_data a ha
    simp only [simple_assignment_fallback, List.mem_map] at ha
    rcases ha with ⟨p, _, rfl⟩
    exact ⟨rfl, rfl⟩
  · intro trips_data vehicles_data vid hnodup
    have hmap : ((simple_assignment_fallback trips_data vehicles_data).assignments.countP
        (fun a => a.assigned_vehicle_id = vid)) =
        (trips_data.zip vehicles_data).countP (fun q => q.2.id = vid) := by
      simp [simple_assignment_fallback, List.countP_map]
      rfl
    rw [hmap]
    refine Nat.le_trans
      (countP_zip_right (fun (v : CVehicle) => decide (v.id = vid)) _ _) ?_
    have hcount : vehicles_data.countP (fun (v : CVehicle) => decide (v.id = vid)) =
        (vehicles_data.map CVehicle.id).count vid := by
      rw [List.count, List.countP_map]
      refine List.countP_congr fun v _ => ?_
      by_cases h : v.id = vid <;> simp [h, Function.comp]
    rw [hcount]
    exact List.nodup_iff_count_le_one.mp hnodup vid

/-- Witness for C7 at concrete nonempty inputs. -/
theorem C7_sequence_dense_witness :
    (extract_vehicle_chain [(5, (3 : ℚ)), (6, 1)]).countP (fun x => x.2.2) = 1 ∧
      (apply_route_numbering [7, 8, 9]).countP (fun x => x.2.2) = 1 ∧
      (simple_assignment_fallback [ctripA] [cvehA]).assignments.countP
          (fun a => a.assigned_vehicle_id = 31) ≤ 1 := by
  refine ⟨(C7_sequence_dense.1 [(5, 3), (6, 1)]).2 (by simp),
    (C7_sequence_dense.2.1 [7, 8, 9]).2 (by simp),
    C7_sequence_dense.2.2.2 [ctripA] [cvehA] 31 (by simp)⟩

/-- Cargo-to-vehicle-category table of `_group_trips_by_compatibility`,
with the `ag1` refrigerated truck as fallback. -/
def compatibility_map (cargo : String) : String :=
  if cargo = "a01_produits_frais" then "ag1_camion_frigorifique"
  else if cargo = "a02_produits_surgeles" then "ag2_camion_refrigere"
  else if cargo = "a03_produits_secs" then "ag3_camion_isotherme"
  else if cargo = "a04_boissons_liquides" then "ag4_camion_citerne_alimentaire"
  else if cargo = "b01_materiaux_vrac" then "bt1_camion_benne"
  else if cargo = "b02_materiaux_solides" then "bt4_camion_plateau_ridelles"
  else if cargo = "b03_beton_pret" then "bt3_camion_malaxeur"
  else if cargo = "i01_produits_finis" then "in2_fourgon_ferme"
  else if cargo = "i02_pieces_detachees" then "in6_camion_fourgon_hayon"
  else if cargo = "c01_chimiques_liquides" then "ch2_camion_citerne_chimique"
  else if cargo = "c02_chimiques_solides" then "ch4_camion_adr"
  else "ag1_camion_frigorifique"

/-- Grouping of `_group_trips_by_compatibility`: one bucket per occurring
vehicle category (bucket order is irrelevant to every stated result). -/
def group_trips_by_compatibility (trips : List CTrip) : List (String × List CTrip) :=
  ((trips.map fun t => compatibility_map t.cargoCategory).dedup).map fun c =>
    (c, trips.filter fun t => compatibility_map t.cargoCategory = c)

/-- Result of `run_nightly_optimization` (success path): the returned dict
has keys `success`, `trips_optimized`, `total_km_saved`, `total_fuel_saved`;
it carries no `unassigned` key.  `trips_optimized` counts the written
assignments. -/
structure RunResult where
  success : Bool
  trips_optimized : Nat
  km_saved : ℚ
  fuel_saved : ℚ
  assignments : List CAssign
deriving DecidableEq, Repr

/-- Step-4 loop of `run_nightly_optimization`: per category bucket, filter
compatible vehicles; when none exist the bucket is skipped with only a log
warning; otherwise the group optimizer runs and, on `success`, its
assignments and savings are accumulated. -/
def run_groups (optGroup : String → List CTrip → List CVehicle → GroupResult)
    (vehicles : List CVehicle) : List (String × List CTrip) → List CAssign × ℚ × ℚ
  | [] => ([], 0, 0)
  | (cat, gts) :: rest =>
    let acc := run_groups optGroup vehicles rest
    let compatible := vehicles.filter fun v => v.category = cat
    if compatible.isEmpty then acc
    else
      let r := optGroup cat gts compatible
      if r.success then (r.assignments ++ acc.1, r.km_saved + acc.2.1, r.fuel_saved + acc.2.2)
      else acc

/-- Embedding of the success path of `run_nightly_optimization`: early
return when trips or vehicles are absent, otherwise group, optimize per
group, and report the written assignments and accumulated totals. -/
def run_nightly_core (optGroup : String → List CTrip → List CVehicle → GroupResult)
    (trips : List CTrip) (vehicles : List CVehicle) : RunResult :=
  if trips.isEmpty ∨ vehicles.isEmpty then
    { success := false, trips_optimized := 0, km_saved := 0, fuel_saved := 0, assignments := [] }
  else
    let res := run_groups optGroup vehicles (group_trips_by_compatibility trips)
    { success := true, trips_optimized := res.1.length, km_saved := res.2.1
      fuel_saved := res.2.2, assignments := res.1 }

/-- A feasible trip whose cargo requires the `bt1` dump-truck category. -/
def ctripVrac : CTrip :=
  { id := 9, cargoCategory := "b01_materiaux_vrac", orig := (0, 0), dest := (1, 1)
    earliest := 0, latest := 100, duration := 10, service := 30
    demand := 1, r_i0 := 5, companyId := 3 }

/-- Group optimizer that never succeeds; irrelevant to the counterexample,
whose group is skipped before any optimizer call. -/
def ogNone : String → List CTrip → List CVehicle → GroupResult :=
  fun _ _ _ => { success := false, assignments := [], km_saved := 0, fuel_saved := 0
                 vehicle_category := "" }

/-- C2 counterexample: one feasible trip requiring category `bt1` and one
available `ag1` vehicle.  The batch completes with `success = true` but
`trips_optimized = 0` and no assignment, and the result dictionary has no
unassigned set at all, so `trips_optimized + |unassigned| = 0` differs from
the one feasible input trip: the trip is silently dropped, not reported. -/
theorem C2_counterexample :
    (run_nightly_core ogNone [ctripVrac] [cvehA]).success = true ∧
      (run_nightly_core ogNone [ctripVrac] [cvehA]).assignments = [] ∧
      (run_nightly_core ogNone [ctripVrac] [cvehA]).trips_optimized + 0 ≠
        ([ctripVrac] : List CTrip).length := by
  refine ⟨rfl, rfl, ?_⟩
  have h : (run_nightly_core ogNone [ctripVrac] [cvehA]).trips_optimized = 0 := rfl
  rw [h]
  norm_num

/-- The sequence of group results produced by the Step-4 loop, in loop
order: one result per category bucket that has compatible vehicles. -/
def processed_group_results (og : String → List CTrip → List CVehicle → GroupResult)
    (vehicles : List CVehicle) : List (String × List CTrip) → List GroupResult
  | [] => []
  | (cat, gts) :: rest =>
    let compatible := vehicles.filter fun v => v.category = cat
    if compatible.isEmpty then processed_group_results og vehicles rest
    else og cat gts compatible :: processed_group_results og vehicles rest

/-- C10: every fallback result reports `success = true`,
`km_saved = 10 * (number of assignments made)` and
`fuel_saved = 0.3 * km_saved` regardless of any trip, return, or depot
distance, and the batch loop accumulates exactly the `km_saved` and
`fuel_saved` of the successful group results into the batch totals. -/
theorem C10_fallback_constants :
    (∀ (trips_data : List CTrip) (vehicles_data : List CVehicle),
      (simple_assignment_fallback trips_data vehicles_data).success = true ∧
        (simple_assignment_fallback trips_data vehicles_data).km_saved =
          ((simple_assignment_fallback trips_data vehicles_data).assignments.length : ℚ) * 10 ∧
        (simple_assignment_fallback trips_data vehicles_data).fuel_saved =
          (simple_assignment_fallback trips_data vehicles_data).km_saved * (3 / 10)) ∧
    (∀ (og : String → List CTrip → List CVehicle → GroupResult)
        (vehicles : List CVehicle) (groups : List (String × List CTrip)),
      (run_groups og vehicles groups).2.1 =
          (((processed_group_results og vehicles groups).filter
            fun r => r.success).map fun r => r.km_saved).sum ∧
        (run_groups og vehicles groups).2.2 =
          (((processed_group_results og vehicles groups).filter
            fun r => r.success).map fun r => r.fuel_saved).sum) := by
  constructor
  · intro trips_data vehicles_data
    exact ⟨rfl, rfl, rfl⟩
  · intro og vehicles groups
    induction groups with
    | nil => exact ⟨rfl, rfl⟩
    | cons g rest ih =>
      obtain ⟨ih1, ih2⟩ := ih
      obtain ⟨cat, gts⟩ := g
      by_cases hempty : (vehicles.filter fun v => v.category = cat).isEmpty
      · simp only [run_groups, processed_group_results, hempty, if_true]
        exact ⟨ih1, ih2⟩
      · by_cases hsucc : (og cat gts (vehicles.filter fun v => v.category = cat)).success
        · simp only [run_groups, processed_group_results, hempty, hsucc, if_false,
            Bool.false_eq_true, if_true, List.filter_cons, List.map_cons, List.sum_cons]
          simp [hsucc, ih1, ih2]
        · simp only [run_groups, processed_group_results, hempty, hsucc, if_false,
            Bool.false_eq_true, List.filter_cons]
          simp [hsucc, ih1, ih2]

/-- States of an optimization batch row. -/
inductive BatchStatus where
  | pending
  | processing
  | completed
  | failed
deriving DecidableEq, Repr

/-- The slice of the store the batch runner mutates: the batch row status
and the trip assignments committed so far. -/
structure BatchDb where
  status : BatchStatus
  written : List CAssign
deriving DecidableEq, Repr

/-- Structured result dictionary returned by the runner. -/
structure BatchOutcome where
  success : Bool
  error : Option String
  trips_optimized : Nat
deriving DecidableEq, Repr

/-- Embedding of the try/except skeleton of `run_nightly_optimization`:
the batch row starts PROCESSING; the fallible stages (trip fetch, vehicle
fetch, per-group optimization including data preparation, assignment
write-back, KPI computation, report generation) run in source order; the
first failure is caught, the batch is marked FAILED, and a structured
error result is returned.  Assignments committed by the write-back stage
stay in the store when a later stage fails.  The function is total: no
failure escapes as an exception. -/
def run_nightly_batch
    (getTrips : Except String (List CTrip))
    (getVehicles : Except String (List CVehicle))
    (optimizeGroups : List CTrip → List CVehicle → Except String (List CAssign))
    (updateAssignments : List CAssign → Except String (List CAssign))
    (calcKpis : List CAssign → Except String Unit)
    (genReports : Except String Unit) : BatchDb × BatchOutcome :=
  match getTrips with
  | .error e => (⟨.failed, []⟩, ⟨false, some e, 0⟩)
  | .ok trips =>
    match getVehicles with
    | .error e => (⟨.failed, []⟩, ⟨false, some e, 0⟩)
    | .ok vehicles =>
      if trips.isEmpty ∨ vehicles.isEmpty then (⟨.completed, []⟩, ⟨false, none, 0⟩)
      else
        match optimizeGroups trips vehicles with
        | .error e => (⟨.failed, []⟩, ⟨false, some e, 0⟩)
        | .ok assignments =>
          match updateAssignments assignments with
          | .error e => (⟨.failed, []⟩, ⟨false, some e, 0⟩)
          | .ok written =>
            match calcKpis written with
            | .error e => (⟨.failed, written⟩, ⟨false, some e, 0⟩)
            | .ok _ =>
              match genReports with
              | .error e => (⟨.failed, written⟩, ⟨false, some e, 0⟩)
              | .ok _ => (⟨.completed, written⟩, ⟨true, none, written.length⟩)

/-- C9: whatever stage fails first, the runner returns (it is a total
function, so nothing propagates), the batch row ends FAILED, the outcome
carries `success = false` with the single error string, and assignments
written before the failure remain in the store. -/
theorem C9_failure_marks_failed
    (getTrips : Except String (List CTrip))
    (getVehicles : Except String (List CVehicle))
    (optimizeGroups : List CTrip → List CVehicle → Except String (List CAssign))
    (updateAssignments : List CAssign → Except String (List CAssign))
    (calcKpis : List CAssign → Except String Unit)
    (genReports : Except String Unit) :
    (∀ e, getTrips = .error e →
      run_nightly_batch getTrips getVehicles optimizeGroups updateAssignments calcKpis
          genReports = (⟨.failed, []⟩, ⟨false, some e, 0⟩)) ∧
    (∀ trips e, getTrips = .ok trips → getVehicles = .error e →
      run_nightly_batch getTrips getVehicles optimizeGroups updateAssignments calcKpis
          genReports = (⟨.failed, []⟩, ⟨false, some e, 0⟩)) ∧
    (∀ trips vehicles e, getTrips = .ok trips → getVehicles = .ok vehicles →
      ¬ (trips.isEmpty ∨ vehicles.isEmpty) → optimizeGroups trips vehicles = .error e →
      run_nightly_batch getTrips getVehicles optimizeGroups updateAssignments calcKpis
          genReports = (⟨.failed, []⟩, ⟨false, some e, 0⟩)) ∧
    (∀ trips vehicles assignments e, getTrips = .ok trips → getVehicles = .ok vehicles →
      ¬ (trips.isEmpty ∨ vehicles.isEmpty) →
      optimizeGroups trips vehicles = .ok assignments →
      updateAssignments assignments = .error e →
      run_nightly_batch getTrips getVehicles optimizeGroups updateAssignments calcKpis
          genReports = (⟨.failed, []⟩, ⟨false, some e, 0⟩)) ∧
    (∀ trips vehicles assignments written e, getTrips = .ok trips →
      getVehicles = .ok vehicles → ¬ (trips.isEmpty ∨ vehicles.isEmpty) →
      optimizeGroups trips vehicles = .ok assignments →
      updateAssignments assignments = .ok written → calcKpis written = .error e →
      run_nightly_batch getTrips getVehicles optimizeGroups updateAssignments calcKpis
          genReports = (⟨.failed, written⟩, ⟨false, some e, 0⟩)) ∧
    (∀ trips vehicles assignments written e, getTrips = .ok trips →
      getVehicles = .ok vehicles → ¬ (trips.isEmpty ∨ vehicles.isEmpty) →
      optimizeGroups trips vehicles = .ok assignments →
      updateAssignments assignments = .ok written → calcKpis written = .ok () →
      genReports = .error e →
      run_nightly_batch getTrips getVehicles optimizeGroups updateAssignments calcKpis
          genReports = (⟨.failed, written⟩, ⟨false, some e, 0⟩)) := by
  refine ⟨?_, ?_, ?_, ?_, ?_, ?_⟩
  · intro e h1
    unfold run_nightly_batch
    rw [h1]
  · intro trips e h1 h2
    unfold run_nightly_batch
    rw [h1, h2]
  · intro trips vehicles e h1 h2 hne h3
    unfold run_nightly_batch
    rw [h1, h2]
    dsimp only
    rw [if_neg hne, h3]
  · intro trips vehicles assignments e h1 h2 hne h3 h4
    unfold run_nightly_batch
    rw [h1, h2]
    dsimp only
    rw [if_neg hne, h3]
    dsimp only
    rw [h4]
  · intro trips vehicles assignments written e h1 h2 hne h3 h4 h5
    unfold run_nightly_batch
    rw [h1, h2]
    dsimp only
    rw [if_neg hne, h3]
    dsimp only
    rw [h4]
    dsimp only
    rw [h5]
  · intro trips vehicles assignments written e h1 h2 hne h3 h4 h5 h6
    unfold run_nightly_batch
    rw [h1, h2]
    dsimp only
    rw [if_neg hne, h3]
    dsimp only
    rw [h4]
    dsimp only
    rw [h5]
    dsimp only
    rw [h6]

/-- Concrete assignment record for the batch-runner witness. -/
def casgW : CAssign :=
  { trip_id := 9, original_company := 3, assigned_vehicle_id := 31, assigned_company := 1
    sequence_order := 1, is_last_in_chain := true, start_time := 0 }

/-- Witness for C9: a run whose KPI stage fails after the write-back stage
committed one assignment ends FAILED with the error recorded and the
assignment still in the store. -/
theorem C9_failure_marks_failed_witness :
    run_nightly_batch (.ok [ctripVrac]) (.ok [cvehA]) (fun _ _ => .ok [casgW])
        (fun l => .ok l) (fun _ => .error "kpi write failed") (.ok ()) =
      (⟨.failed, [casgW]⟩, ⟨false, some "kpi write failed", 0⟩) :=
  (C9_failure_marks_failed (.ok [ctripVrac]) (.ok [cvehA]) (fun _ _ => .ok [casgW])
      (fun l => .ok l) (fun _ => .error "kpi write failed") (.ok ())).2.2.2.2.1
    [ctripVrac] [cvehA] [casgW] [casgW] "kpi write failed" rfl rfl
    (by simp) rfl rfl rfl

/-- Embedding of `infer_required_vehicle_category`: the trip's own field
wins, otherwise the cargo-code prefix decides, with `AG1` as fallback. -/
def infer_required_vehicle_category (t : SCTrip) : String :=
  match t.required_vehicle_category with
  | some c => c
  | none =>
    if t.cargoCategory.startsWith "a01" then "ag1_camion_frigorifique"
    else if t.cargoCategory.startsWith "a02" then "ag2_camion_refrigere"
    else if t.cargoCategory.startsWith "a03" then "ag3_camion_isotherme"
    else if t.cargoCategory.startsWith "a04" then "ag4_camion_citerne_alimentaire"
    else if t.cargoCategory.startsWith "b01" then "bt1_camion_benne"
    else if t.cargoCategory.startsWith "b02" then "bt4_camion_plateau_ridelles"
    else if t.cargoCategory.startsWith "b03" then "bt3_camion_malaxeur"
    else if t.cargoCategory.startsWith "i01" then "in2_fourgon_ferme"
    else if t.cargoCategory.startsWith "i02" then "in6_camion_fourgon_hayon"
    else if t.cargoCategory.startsWith "c01" then "ch2_camion_citerne_chimique"
    else if t.cargoCategory.startsWith "c02" then "ch4_camion_adr"
    else "ag1_camion_frigorifique"

/-- Feasibility split at the top of `_solve_group`: trips without both
coordinate pairs, or without any compatible vehicle in the group, go to the
infeasible list; the rest are feasible.  Order within each part follows the
loop. -/
def split_feasible (gvs : List SCVehicle) (cat : String) :
    List SCTrip → List SCTrip × List SCTrip
  | [] => ([], [])
  | t :: ts =>
    let acc := split_feasible gvs cat ts
    if t.hasCoords = false then (acc.1, t :: acc.2)
    else if gvs.all fun v => ! is_vehicle_compatible v t cat then (acc.1, t :: acc.2)
    else (t :: acc.1, acc.2)

/-- Routes reconstructed from the routing solution: the solver's output is
abstracted as the partial map `keep` sending each feasible trip to the id
of the vehicle whose route visits it (`none` = dropped by the solver).
As in the source, vehicles whose route is empty are omitted. -/
def group_routes (gvs : List SCVehicle) (fs : List SCTrip) (keep : SCTrip → Option Nat) :
    List (Nat × List SCTrip) :=
  gvs.filterMap fun v =>
    let r := fs.filter fun t => keep t = some v.id
    if r.isEmpty then none else some (v.id, r)

/-- Trips of the feasible set not assigned by the solution to any vehicle
of the group (`dropped` in `_solve_group`). -/
def group_dropped (gvs : List SCVehicle) (fs : List SCTrip) (keep : SCTrip → Option Nat) :
    List SCTrip :=
  fs.filter fun t => gvs.all fun v => ! decide (keep t = some v.id)

/-- Embedding of `_solve_group` at the accounting level: split, then either
bail out with everything unassigned (no feasible trips or no vehicles,
matching the early `return {}, infeasible + feasible`) or return the routes
and `infeasible + dropped`. -/
def solve_group (cat : String) (gts : List SCTrip) (gvs : List SCVehicle)
    (keep : SCTrip → Option Nat) : List (Nat × List SCTrip) × List SCTrip :=
  let parts := split_feasible gvs cat gts
  if parts.1.isEmpty ∨ gvs.isEmpty then ([], parts.2 ++ parts.1)
  else (group_routes gvs parts.1 keep, parts.2 ++ group_dropped gvs parts.1 keep)

lemma split_feasible_length (gvs : List SCVehicle) (cat : String) :
    ∀ ts : List SCTrip,
      (split_feasible gvs cat ts).1.length + (split_feasible gvs cat ts).2.length = ts.length
  | [] => rfl
  | t :: ts => by
    have ih := split_feasible_length gvs cat ts
    simp only [split_feasible]
    split
    · simp only [List.length_cons]
      omega
    · split
      · simp only [List.length_cons]
        omega
      · simp only [List.length_cons]
        omega

lemma indicator_partition (keep : SCTrip → Option Nat) (t : SCTrip) :
    ∀ gvs : List SCVehicle, (gvs.map SCVehicle.id).Nodup →
      ((gvs.map fun v => if keep t = some v.id then 1 else 0).sum +
        (if gvs.all (fun v => ! decide (keep t = some v.id)) then 1 else 0)) = 1
  | [], _ => by simp
  | v :: vs, hnodup => by
    have hcons := List.nodup_cons.mp (show (v.id :: vs.map SCVehicle.id).Nodup from hnodup)
    by_cases h : keep t = some v.id
    · have hrest : (vs.map fun w => if v.id = w.id then 1 else 0).sum = 0 := by
        refine List.sum_eq_zero fun x hx => ?_
        rcases List.mem_map.mp hx with ⟨w, hw, rfl⟩
        have hne : v.id ≠ w.id := fun hc =>
          hcons.1 (hc ▸ List.mem_map_of_mem SCVehicle.id hw)
        simp [hne]
      simp [List.all_cons, h, hrest]
    · have ih := indicator_partition keep t vs hcons.2
      simp only [List.map_cons, List.sum_cons, List.all_cons, h, if_false,
        decide_eq_true_eq]
      simpa [h] using ih

lemma sum_map_add_nat {α : Type} (f g : α → ℕ) :
    ∀ l : List α, (l.map fun x => f x + g x).sum = (l.map f).sum + (l.map g).sum
  | [] => rfl
  | x :: xs => by
    simp [sum_map_add_nat f g xs]
    omega

lemma counts_partition (keep : SCTrip → Option Nat) (gvs : List SCVehicle)
    (hnodup : (gvs.map SCVehicle.id).Nodup) :
    ∀ fs : List SCTrip,
      (gvs.map fun v => (fs.filter fun t => keep t = some v.id).length).sum +
        (group_dropped gvs fs keep).length = fs.length
  | [] => by simp [group_dropped]
  | t :: fs => by
    have ih := counts_partition keep gvs hnodup fs
    have hind := indicator_partition keep t gvs hnodup
    have hmap : (gvs.map fun v => ((t :: fs).filter fun u => keep u = some v.id).length) =
        gvs.map fun v =>
          (if keep t = some v.id then 1 else 0) +
            (fs.filter fun u => keep u = some v.id).length := by
      refine List.map_congr_left fun v hv => ?_
      by_cases h : keep t = some v.id
      · simp [List.filter_cons, h]
        omega
      · simp [List.filter_cons, h]
    have hdrop : (group_dropped gvs (t :: fs) keep).length =
        (if gvs.all (fun v => ! decide (keep t = some v.id)) then 1 else 0) +
          (group_dropped gvs fs keep).length := by
      by_cases h : gvs.all fun v => ! decide (keep t = some v.id)
      · simp [group_dropped, List.filter_cons, h]
        omega
      · simp [group_dropped, List.filter_cons, h]
    rw [hmap, sum_map_add_nat, hdrop]
    simp only [List.length_cons]
    omega

lemma group_routes_length (fs : List SCTrip) (keep : SCTrip → Option Nat) :
    ∀ gvs : List SCVehicle,
      ((group_routes gvs fs keep).map fun r => r.2.length).sum =
        (gvs.map fun v => (fs.filter fun t => keep t = some v.id).length).sum
  | [] => rfl
  | v :: vs => by
    have ih := group_routes_length fs keep vs
    simp only [group_routes] at ih ⊢
    rw [List.filterMap_cons]
    by_cases h : (fs.filter fun t => keep t = some v.id).isEmpty
    · rw [if_pos h]
      have hlen : (fs.filter fun t => keep t = some v.id).length = 0 := by
        rw [List.length_eq_zero]
        exact List.isEmpty_iff.mp h
      dsimp only
      rw [ih]
      simp [hlen]
    · rw [if_neg h]
      dsimp only
      rw [List.map_cons, List.sum_cons, ih, List.map_cons, List.sum_cons]

lemma solve_group_accounting (cat : String) (gts : List SCTrip) (gvs : List SCVehicle)
    (keep : SCTrip → Option Nat) (hnodup : (gvs.map SCVehicle.id).Nodup) :
    ((solve_group cat gts gvs keep).1.map fun r => r.2.length).sum +
      (solve_group cat gts gvs keep).2.length = gts.length := by
  have hsplit := split_feasible_length gvs cat gts
  unfold solve_group
  dsimp only
  split
  · simp only [List.map_nil, List.sum_nil, List.length_append]
    omega
  · have hcounts := counts_partition keep gvs hnodup (split_feasible gvs cat gts).1
    simp only [List.length_append, group_routes_length]
    omega

lemma emitChain_length {α : Type} (total : Nat) :
    ∀ (l : List α) (k : Nat), (emitChain total k l).length = l.length
  | [], _ => rfl
  | t :: ts, k => by
    simp [emitChain, emitChain_length total ts (k + 1)]

/-- Assignment record written per routed trip by the single-company loop. -/
structure SCAssign where
  trip_id : Nat
  assigned_vehicle_id : Nat
  sequence_order : Nat
  is_last_in_chain : Bool
deriving DecidableEq, Repr

/-- Per-category loop of `optimize_trips_for_date`: categories without
vehicles send all their trips to `unassigned` with the
`no_vehicles_for_category` reason; solved categories write numbered
assignments for each route and report dropped or infeasible trips with the
`dropped_or_infeasible` reason. -/
def run_cats (solveKeep : String → List SCTrip → List SCVehicle → (SCTrip → Option Nat))
    (trips : List SCTrip) (vehicles : List SCVehicle) :
    List String → List SCAssign × List (Nat × String)
  | [] => ([], [])
  | c :: cs =>
    let acc := run_cats solveKeep trips vehicles cs
    let gts := trips.filter fun t => infer_required_vehicle_category t = c
    let gvs := vehicles.filter fun v => v.category = c
    if gvs.isEmpty then
      (acc.1, (gts.map fun t => (t.id, "no_vehicles_for_category:" ++ c)) ++ acc.2)
    else
      let parts := solve_group c gts gvs (solveKeep c gts gvs)
      ((parts.1.flatMap fun r => (emitChain r.2.length 0 r.2).map fun x =>
          (⟨x.1.id, r.1, x.2.1, x.2.2⟩ : SCAssign)) ++ acc.1,
       (parts.2.map fun t => (t.id, "dropped_or_infeasible")) ++ acc.2)

/-- Embedding of the accounting skeleton of `optimize_trips_for_date`
(single-company mode): group by required category and run the per-category
loop; empty inputs return early with nothing processed. -/
def single_company_run
    (solveKeep : String → List SCTrip → List SCVehicle → (SCTrip → Option Nat))
    (trips : List SCTrip) (vehicles : List SCVehicle) :
    List SCAssign × List (Nat × String) :=
  if trips.isEmpty ∨ vehicles.isEmpty then ([], [])
  else run_cats solveKeep trips vehicles ((trips.map infer_required_vehicle_category).dedup)

lemma length_flatMap_emit (routes : List (Nat × List SCTrip)) :
    (routes.flatMap fun r => (emitChain r.2.length 0 r.2).map fun x =>
        (⟨x.1.id, r.1, x.2.1, x.2.2⟩ : SCAssign)).length =
      (routes.map fun r => r.2.length).sum := by
  induction routes with
  | nil => rfl
  | cons r rs ih => simp [List.flatMap_cons, emitChain_length, ih]

lemma run_cats_length
    (solveKeep : String → List SCTrip → List SCVehicle → (SCTrip → Option Nat))
    (trips : List SCTrip) (vehicles : List SCVehicle)
    (hnodup : (vehicles.map SCVehicle.id).Nodup) :
    ∀ cs : List String,
      (run_cats solveKeep trips vehicles cs).1.length +
          (run_cats solveKeep trips vehicles cs).2.length =
        (cs.map fun c =>
          (trips.filter fun t => infer_required_vehicle_category t = c).length).sum
  | [] => rfl
  | c :: cs => by
    have ih := run_cats_length solveKeep trips vehicles hnodup cs
    have hsub : ((vehicles.filter fun v => v.category = c).map SCVehicle.id).Nodup :=
      List.Nodup.sublist (List.Sublist.map SCVehicle.id (List.filter_sublist vehicles)) hnodup
    have hacct := solve_group_accounting c
      (trips.filter fun t => infer_required_vehicle_category t = c)
      (vehicles.filter fun v => v.category = c)
      (solveKeep c (trips.filter fun t => infer_required_vehicle_category t = c)
        (vehicles.filter fun v => v.category = c)) hsub
    simp only [run_cats]
    by_cases h : (vehicles.filter fun v => v.category = c).isEmpty
    · rw [if_pos h]
      simp only [List.length_append, List.length_map, List.map_cons, List.sum_cons]
      omega
    · rw [if_neg h]
      simp only [List.length_append, List.length_map, List.map_cons, List.sum_cons]
      rw [length_flatMap_emit]
      omega

/-- C2 (amended): in the single-company optimizer every processed trip is
either assigned or listed in `unassigned` with a reason (no-vehicle
categories and solver-dropped or infeasible trips), so assignments plus
unassigned records account for every input trip; the cross-company runner
has no unassigned set and silently skips category groups without
compatible vehicles. -/
theorem C2_amended
    (solveKeep : String → List SCTrip → List SCVehicle → (SCTrip → Option Nat))
    (trips : List SCTrip) (vehicles : List SCVehicle)
    (hnodup : (vehicles.map SCVehicle.id).Nodup)
    (hne : ¬ (trips.isEmpty ∨ vehicles.isEmpty)) :
    (single_company_run solveKeep trips vehicles).1.length +
      (single_company_run solveKeep trips vehicles).2.length = trips.length := by
  unfold single_company_run
  rw [if_neg hne, run_cats_length solveKeep trips vehicles hnodup]
  have hcount : ∀ c : String,
      (trips.filter fun t => infer_required_vehicle_category t = c).length =
        (trips.map infer_required_vehicle_category).count c := by
    intro c
    rw [List.count, List.countP_map, ← List.countP_eq_length_filter]
    refine List.countP_congr fun t ht => ?_
    by_cases h : infer_required_vehicle_category t = c <;> simp [h, Function.comp]
  calc ((trips.map infer_required_vehicle_category).dedup.map fun c =>
          (trips.filter fun t => infer_required_vehicle_category t = c).length).sum
      = ((trips.map infer_required_vehicle_category).dedup.map fun c =>
          (trips.map infer_required_vehicle_category).count c).sum := by
        exact congrArg List.sum (List.map_congr_left fun c hc => hcount c)
    _ = (trips.map infer_required_vehicle_category).length :=
        List.sum_map_count_dedup_eq_length _
    _ = trips.length := List.length_map _ _

/-- One feasible trip requiring the `ag1` category. -/
def sctW : SCTrip :=
  { id := 11, hasCoords := true, cargo_weight_kg := 100, cargo_volume_m3 := none
    required_vehicle_category := none, cargoCategory := "a01_produits_frais" }

/-- One matching vehicle of the same category. -/
def scvW : SCVehicle :=
  { id := 41, category := "ag1_camion_frigorifique", capacity_tons := some 10
    capacity_m3 := none }

/-- Witness for the amended C2: one trip and one vehicle with a solver that
drops everything still account for the trip (0 assignments, 1 unassigned). -/
theorem C2_amended_witness :
    (single_company_run (fun _ _ _ => fun _ => none) [sctW] [scvW]).1.length +
      (single_company_run (fun _ _ _ => fun _ => none) [sctW] [scvW]).2.length = 1 :=
  C2_amended (fun _ _ _ => fun _ => none) [sctW] [scvW] (by simp) (by simp)
